import Mathlib

/-!
# Verification of the zinc compiler (semantic analyzer + ARC code generator)

This file gives a shallow embedding, in Lean 4, of the parts of the zinc
source-to-C compiler that the specification's claims are about:

* the resolved type model and structural type equality (`src/ast.c`),
* the semantic analyzer's loop/if result typing, optional narrowing,
  `print` checking and struct-field registration (`src/semantic.c`),
* the ARC-aware code generator's statement and expression emission
  (`src/codegen.c`, `src/codegen_expr.c`),
* the refcounted string / array / hash runtime (`src/zinc_runtime.h`).

Each definition is translated from the named C function.  Code generation
is modelled as a function from a codegen context and an AST node to the
updated context together with the list of emitted output fragments: each
`cg_emit`/`cg_emitf` call of the C source contributes exactly one string
to that list, so the concatenation of the list is the generated C text and
the order of the list is the order of emission.
-/

set_option autoImplicit false

namespace Zinc

/-- `TypeKind` from `ast.h` — the kind tag of both unresolved and resolved
types. -/
inductive TypeKind where
  | tkUnknown
  | tkInt
  | tkFloat
  | tkString
  | tkBool
  | tkChar
  | tkVoid
  | tkStruct
  | tkClass
  | tkArray
  | tkHash
deriving DecidableEq, Repr

/-- Resolved type `Type` from `ast.h` (named `Ty` here because `Type` is a
Lean builtin).  The C struct also carries `elem`/`key` pointers for
container types, but `type_eq` never reads them and `type_clone` does not
copy them, so no claim in this development depends on them; they are
omitted.  `name` is `NULL`-able in C, hence `Option String`. -/
structure Ty where
  kind : TypeKind
  is_optional : Bool
  name : Option String
deriving DecidableEq, Repr

/-- `type_new` from `ast.c`: `calloc` zeroes the record, so the optional
flag is false and the name is `NULL`. -/
def type_new (kind : TypeKind) : Ty :=
  { kind := kind, is_optional := false, name := none }

/-- `type_clone` from `ast.c`: copies `kind`, `is_optional` and `name`
(and nothing else — in particular not `elem`/`key`). On the omitted-field
model this is the identity. -/
def type_clone (t : Ty) : Ty :=
  { kind := t.kind, is_optional := t.is_optional, name := t.name }

/-- `type_eq` from `ast.c` lines 59–69.  Equality fails on distinct kinds
or distinct optional flags; the `name` strings are compared **only when
the kind is `TK_STRUCT`** (with two `NULL` names equal and `NULL` vs
non-`NULL` unequal, from the pointer comparison `a->name == b->name`);
for every other kind, `TK_CLASS` included, the function returns 1. -/
def type_eq (a b : Ty) : Bool :=
  if a.kind ≠ b.kind then false
  else if a.is_optional ≠ b.is_optional then false
  else if a.kind = TypeKind.tkStruct then a.name = b.name
  else true

/-- `is_ref_type` from `codegen.c`/`semantic.c`: strings and classes are
the refcounted-pointer kinds. -/
def is_ref_type (t : TypeKind) : Bool :=
  t = TypeKind.tkString ∨ t = TypeKind.tkClass

/-- `OpKind` from `ast.h`. -/
inductive OpKind where
  | opAdd | opSub | opMul | opDiv | opMod
  | opEq | opNe | opLt | opGt | opLe | opGe
  | opAnd | opOr
  | opNot | opNeg | opPos
  | opInc | opDec
  | opAssign
  | opAddAssign | opSubAssign | opMulAssign | opDivAssign | opModAssign
deriving DecidableEq, Repr

/-- The AST fragment (`ASTNode` from `ast.h`) covering the node shapes the
claims exercise.  Every constructor carries the two mutable slots of the C
struct as its first two arguments: `rt` is `resolved_type` (`NULL`-able,
filled by semantic analysis) and `fr` is `is_fresh_alloc`.  Float and char
literals, calls, field/index access, type definitions and extern nodes are
not part of the fragment; where a claim needs a value of such a type it is
supplied through an identifier bound in the symbol table. -/
inductive Node where
  | nInt (rt : Option Ty) (fr : Bool) (ival : Int)
  | nString (rt : Option Ty) (fr : Bool) (string_id : Nat) (sval : String)
  | nBool (rt : Option Ty) (fr : Bool) (bval : Bool)
  | nIdent (rt : Option Ty) (fr : Bool) (name : String)
  | nBinop (rt : Option Ty) (fr : Bool) (left : Node) (op : OpKind) (right : Node)
  | nUnaryop (rt : Option Ty) (fr : Bool) (op : OpKind) (operand : Node)
  | nOptionalCheck (rt : Option Ty) (fr : Bool) (operand : Node)
  | nBlock (rt : Option Ty) (fr : Bool) (stmts : List Node)
  | nIf (rt : Option Ty) (fr : Bool) (cond : Node) (then_b : Node) (else_b : Option Node)
  | nWhile (rt : Option Ty) (fr : Bool) (cond : Node) (body : Node)
  | nFor (rt : Option Ty) (fr : Bool) (init : Option Node) (cond : Node)
         (update : Option Node) (body : Node)
  | nBreak (rt : Option Ty) (fr : Bool) (value : Option Node)
  | nContinue (rt : Option Ty) (fr : Bool) (value : Option Node)
  | nDecl (rt : Option Ty) (fr : Bool) (name : String) (value : Node) (is_const : Bool)
  | nAssign (rt : Option Ty) (fr : Bool) (target : Node) (value : Node)
deriving Repr

/-- The `resolved_type` slot of a node. -/
def Node.resolved_type : Node → Option Ty
  | .nInt rt _ _ => rt
  | .nString rt _ _ _ => rt
  | .nBool rt _ _ => rt
  | .nIdent rt _ _ => rt
  | .nBinop rt _ _ _ _ => rt
  | .nUnaryop rt _ _ _ => rt
  | .nOptionalCheck rt _ _ => rt
  | .nBlock rt _ _ => rt
  | .nIf rt _ _ _ _ => rt
  | .nWhile rt _ _ _ => rt
  | .nFor rt _ _ _ _ _ => rt
  | .nBreak rt _ _ => rt
  | .nContinue rt _ _ => rt
  | .nDecl rt _ _ _ _ => rt
  | .nAssign rt _ _ _ => rt

/-- The `is_fresh_alloc` slot of a node. -/
def Node.is_fresh_alloc : Node → Bool
  | .nInt _ fr _ => fr
  | .nString _ fr _ _ => fr
  | .nBool _ fr _ => fr
  | .nIdent _ fr _ => fr
  | .nBinop _ fr _ _ _ => fr
  | .nUnaryop _ fr _ _ => fr
  | .nOptionalCheck _ fr _ => fr
  | .nBlock _ fr _ => fr
  | .nIf _ fr _ _ _ => fr
  | .nWhile _ fr _ _ => fr
  | .nFor _ fr _ _ _ _ => fr
  | .nBreak _ fr _ => fr
  | .nContinue _ fr _ => fr
  | .nDecl _ fr _ _ _ => fr
  | .nAssign _ fr _ _ => fr

/-! ## Symbol table (`semantic.c`) -/

/-- `Symbol` from `semantic.h`, restricted to the fields the claims read:
the resolved type and the const flag.  (Function symbols additionally
carry parameter lists; no claim in the fragment calls user functions.) -/
structure Symbol where
  ty : Ty
  is_const : Bool
deriving DecidableEq, Repr

/-- One lexical scope: name → symbol, newest binding first (C uses hashed
buckets with newest-first chains; lookup order is the same). -/
abbrev Scope := List (String × Symbol)

/-- `lookup_local` from `semantic.c`: search a single scope. -/
def lookup_local (s : Scope) (name : String) : Option Symbol :=
  (s.find? (fun p => p.1 = name)).map Prod.snd

/-- `lookup` from `semantic.c`: search scopes innermost-to-outermost. -/
def lookup (scopes : List Scope) (name : String) : Option Symbol :=
  match scopes with
  | [] => none
  | s :: rest =>
      match lookup_local s name with
      | some sym => some sym
      | none => lookup rest name

/-- `push_scope` from `semantic.c`. -/
def push_scope (scopes : List Scope) : List Scope :=
  [] :: scopes

/-- `pop_scope` from `semantic.c`. -/
def pop_scope (scopes : List Scope) : List Scope :=
  scopes.tail

/-- `add_symbol` from `semantic.c`: a duplicate in the current scope is a
diagnostic and leaves the table unchanged (returns `true` in the second
component); otherwise the clone of the type is bound in the current
scope. -/
def add_symbol (scopes : List Scope) (name : String) (ty : Ty) (c : Bool) :
    List Scope × Bool :=
  match scopes with
  | [] => ([], true)
  | s :: rest =>
      match lookup_local s name with
      | some _ => (s :: rest, true)
      | none => (((name, ⟨type_clone ty, c⟩) :: s) :: rest, false)

/-! ## Expression typing (`get_expr_type`, `semantic.c` lines 194–334) -/

/-- `get_expr_type` from `semantic.c`, restricted to the fragment.  The C
function first returns the cached `resolved_type` when present; otherwise
it computes a kind and stores `type_new(kind)` (so the computed type has
optional flag 0 and no name), except for identifiers, which store a
`type_clone` of the symbol's type.  Diagnostics (undefined variable) only
bump the error counter and leave the kind unknown; the counter is not
modelled here. -/
def get_expr_type (scopes : List Scope) : Node → Ty
  | .nInt rt _ _ => rt.getD (type_new TypeKind.tkInt)
  | .nString rt _ _ _ => rt.getD (type_new TypeKind.tkString)
  | .nBool rt _ _ => rt.getD (type_new TypeKind.tkBool)
  | .nIdent rt _ name =>
      match rt with
      | some t => t
      | none =>
          match lookup scopes name with
          | none => type_new TypeKind.tkUnknown
          | some sym => type_clone sym.ty
  | .nBinop rt _ l op r =>
      match rt with
      | some t => t
      | none =>
          let lk := (get_expr_type scopes l).kind
          let rk := (get_expr_type scopes r).kind
          let result :=
            if op = OpKind.opEq ∨ op = OpKind.opNe ∨ op = OpKind.opLt ∨
               op = OpKind.opGt ∨ op = OpKind.opLe ∨ op = OpKind.opGe then
              TypeKind.tkBool
            else if op = OpKind.opAnd ∨ op = OpKind.opOr then
              TypeKind.tkBool
            else if op = OpKind.opAdd ∧
                    (lk = TypeKind.tkString ∨ rk = TypeKind.tkString) then
              TypeKind.tkString
            else if lk = TypeKind.tkFloat ∨ rk = TypeKind.tkFloat then
              TypeKind.tkFloat
            else
              TypeKind.tkInt
          type_new result
  | .nUnaryop rt _ op operand =>
      match rt with
      | some t => t
      | none =>
          if op = OpKind.opNot then type_new TypeKind.tkBool
          else type_new (get_expr_type scopes operand).kind
  | .nOptionalCheck rt _ _ => rt.getD (type_new TypeKind.tkBool)
  | .nIf rt _ _ _ _ => rt.getD (type_new TypeKind.tkUnknown)
  | .nWhile rt _ _ _ => rt.getD (type_new TypeKind.tkUnknown)
  | .nFor rt _ _ _ _ _ => rt.getD (type_new TypeKind.tkUnknown)
  | .nBreak rt _ value =>
      match rt with
      | some t => t
      | none =>
          match value with
          | some v => type_new (get_expr_type scopes v).kind
          | none => type_new TypeKind.tkUnknown
  | .nContinue rt _ value =>
      match rt with
      | some t => t
      | none =>
          match value with
          | some v => type_new (get_expr_type scopes v).kind
          | none => type_new TypeKind.tkUnknown
  | .nAssign rt _ _ value =>
      match rt with
      | some t => t
      | none => type_new (get_expr_type scopes value).kind
  | .nBlock rt _ _ => rt.getD (type_new TypeKind.tkUnknown)
  | .nDecl rt _ _ _ _ => rt.getD (type_new TypeKind.tkUnknown)

/-! ## Loop and conditional result typing (`analyze_stmt`, `semantic.c`) -/

/-- `is_always_true` from `semantic.c` lines 150–162: only the literal
`true` and `!false` (from desugared `until false`) count. -/
def is_always_true : Node → Bool
  | .nBool _ _ b => b
  | .nUnaryop _ _ op inner =>
      if op = OpKind.opNot then
        match inner with
        | .nBool _ _ b => !b
        | _ => false
      else false
  | _ => false

/-- The `NODE_BREAK`/`NODE_CONTINUE` update of
`ctx->loop_result_type`/`loop_result_set` in `analyze_stmt`
(`semantic.c` lines 807–819 and 825–837): a carried value whose type is
neither unknown nor void sets the loop result if unset, and otherwise
must `type_eq`-match the one already recorded (second component counts
diagnostics). -/
def analyze_break_value (scopes : List Scope) (lr : Option Ty) (value : Node) :
    Option Ty × Nat :=
  let bt := get_expr_type scopes value
  if bt.kind ≠ TypeKind.tkUnknown ∧ bt.kind ≠ TypeKind.tkVoid then
    match lr with
    | none => (some (type_clone bt), 0)
    | some t => (some t, if type_eq t bt then 0 else 1)
  else (lr, 0)

/-- The loop-result state produced by a sequence of `break`/`continue`
carried values analyzed in order (each one passing through
`analyze_break_value`), starting from the unset state. -/
def loop_result_of_breaks (scopes : List Scope) (vals : List Node) : Option Ty :=
  vals.foldl (fun lr v => (analyze_break_value scopes lr v).1) none

/-- The `NODE_WHILE` result typing from `analyze_stmt` (`semantic.c`
lines 756–765): if the body set a loop result, the while expression's
`resolved_type` becomes a clone of it, with the optional flag forced on
when the condition is not statically true.  When no loop result was set,
`resolved_type` is left empty. -/
def analyze_while_result (lr : Option Ty) (cond : Node) : Option Ty :=
  match lr with
  | none => none
  | some t =>
      let r := type_clone t
      some (if is_always_true cond then r else { r with is_optional := true })

/-- The `NODE_FOR` result typing from `analyze_stmt` (`semantic.c` lines
791–796): a clone of the loop result with the optional flag always
forced on. -/
def analyze_for_result (lr : Option Ty) : Option Ty :=
  match lr with
  | none => none
  | some t => some { type_clone t with is_optional := true }

/-- `while (last->next) last = last->next` — the last statement of a
block's statement list (`NULL`-able). -/
def last_node : List Node → Option Node
  | [] => none
  | [x] => some x
  | _ :: rest => last_node rest

/-- The `NODE_IF` result typing from `analyze_stmt` (`semantic.c` lines
699–743), for a then-block and an optional else-**block** (the else-if
chain form reads the nested if's cached `resolved_type` instead and is
outside this fragment).  With an else branch: the kinds of the two
branches' last expressions must be equal and neither unknown nor void;
the result is that kind, with the **then** branch's struct/class name
propagated — the else branch's name is never read.  Without an else
branch: the optional of the then branch's type. -/
def analyze_if_result (scopes : List Scope) (then_stmts : List Node)
    (else_stmts : Option (List Node)) : Option Ty :=
  match else_stmts with
  | some es =>
      let then_t := match last_node then_stmts with
        | some n => (get_expr_type scopes n).kind
        | none => TypeKind.tkUnknown
      let else_t := match last_node es with
        | some n => (get_expr_type scopes n).kind
        | none => TypeKind.tkUnknown
      if then_t ≠ TypeKind.tkUnknown ∧ then_t ≠ TypeKind.tkVoid ∧ then_t = else_t then
        let propagated :=
          if then_t = TypeKind.tkStruct ∨ then_t = TypeKind.tkClass then
            match last_node then_stmts with
            | some n => (get_expr_type scopes n).name
            | none => none
          else none
        some { kind := then_t, is_optional := false, name := propagated }
      else none
  | none =>
      match last_node then_stmts with
      | none => none
      | some n =>
          let then_t := (get_expr_type scopes n).kind
          if then_t ≠ TypeKind.tkUnknown ∧ then_t ≠ TypeKind.tkVoid then
            some { kind := then_t, is_optional := true, name := none }
          else none


/-! ## C5 — structural type equality -/

/-- A resolved class type named `A`. -/
def tyClassA : Ty := { kind := TypeKind.tkClass, is_optional := false, name := some "A" }

/-- A resolved class type named `B`. -/
def tyClassB : Ty := { kind := TypeKind.tkClass, is_optional := false, name := some "B" }

/-! ## C4 — while/for expression result types -/

/-- Symbol table binding `x` to an optional int (`int?`). -/
def c4Scopes : List Scope :=
  [[("x", ⟨{ kind := TypeKind.tkInt, is_optional := true, name := none }, false⟩)]]

/-- The literal condition `true`. -/
def condLitTrue : Node := Node.nBool none false true

/-! ## C6 — if/else expression join typing -/

/-- Symbol table binding `a : struct A` and `b : struct B`. -/
def c6Scopes : List Scope :=
  [[("a", ⟨{ kind := TypeKind.tkStruct, is_optional := false, name := some "A" }, true⟩),
    ("b", ⟨{ kind := TypeKind.tkStruct, is_optional := false, name := some "B" }, true⟩)]]


/-! ## Optional narrowing, analyzer side (`analyze_stmt` `NODE_IF`,
`semantic.c` lines 661–691) -/

/-- The narrowing test from `analyze_stmt` `NODE_IF` (lines 667–674): the
condition must be an optional-check whose operand is a bare identifier,
the identifier must resolve, and its type must be optional.  Returns the
identifier and its original symbol when narrowing applies. -/
def narrow_candidate (scopes : List Scope) (cond : Node) : Option (String × Symbol) :=
  match cond with
  | .nOptionalCheck _ _ (.nIdent _ _ x) =>
      match lookup scopes x with
      | some orig => if orig.ty.is_optional then some (x, orig) else none
      | none => none
  | _ => none

/-- Entering the narrowed then-block (lines 678–682): push a scope and
bind the same identifier to a non-optional clone of its type, with the
original const flag.  The then-block statements are analyzed in this
symbol table; afterwards the scope is popped (line 684). -/
def narrow_enter (scopes : List Scope) (x : String) (orig : Symbol) : List Scope :=
  (add_symbol (push_scope scopes) x
    { type_clone orig.ty with is_optional := false } orig.is_const).1

/-! ## `print` checking (`analyze_expr` `NODE_CALL`, `semantic.c` lines
484–504, and `gen_expr` `NODE_CALL`, `codegen_expr.c` lines 426–432) -/

/-- The built-in `print` block of `analyze_expr` (lines 485–503): exactly
one argument is required, and its resolved kind must be `TK_STRING` —
except that `TK_UNKNOWN` (an earlier error) suppresses the diagnostic.
Returns the number of diagnostics this block reports together with the
call's resolved type, which is always `void`.  (Diagnostics raised while
analyzing the argument expressions themselves are counted elsewhere.) -/
def analyze_print_call (scopes : List Scope) (args : List Node) : Nat × Ty :=
  match args with
  | [a] =>
      let ak := (get_expr_type scopes a).kind
      (if ak ≠ TypeKind.tkString ∧ ak ≠ TypeKind.tkUnknown then 1 else 0,
       type_new TypeKind.tkVoid)
  | _ => (1, type_new TypeKind.tkVoid)

/-! ## Struct field registration (`analyze_stmt` `NODE_TYPE_DEF`,
`semantic.c` lines 870–896) and required-field checking (`analyze_expr`
struct init, lines 459–475) -/

/-- `TypeInfo` from `ast.h`, restricted to the fields `type_from_info`
reads (object/tuple field lists are outside the fragment). -/
structure TypeInfoM where
  kind : TypeKind
  is_optional : Bool
  name : Option String
deriving DecidableEq, Repr

/-- `type_from_info` from `ast.c` lines 300–307. -/
def type_from_info : Option TypeInfoM → Ty
  | none => type_new TypeKind.tkUnknown
  | some ti => { kind := ti.kind, is_optional := ti.is_optional, name := ti.name }

/-- `StructFieldDef` from `semantic.h` (the `is_weak` flag is never set by
the registration code in the fragment and is omitted). -/
structure StructFieldDef where
  name : String
  ty : Option Ty
  has_default : Bool
  is_const : Bool
  default_value : Option Node
deriving Repr

/-- Registration of one struct/class field from `analyze_stmt`
`NODE_TYPE_DEF` (`semantic.c` lines 870–896).  `reg_is_class sn` models
`lookup_struct(ctx, sn)->is_class` (`none` when the name is not
registered; the undefined-type diagnostic is not modelled).  When the
field carries a type annotation, the annotation wins: `has_default` stays
0 and the `default_value` slot stays `NULL` even if the declaration also
attached a default expression.  Only when there is no annotation and a
default expression exists does the field get `has_default = 1` and the
default's inferred kind. -/
def register_struct_field (scopes : List Scope) (reg_is_class : String → Option Bool)
    (fname : String) (type_info : Option TypeInfoM) (default_value : Option Node)
    (c : Bool) : StructFieldDef :=
  match type_info with
  | some fti =>
      let t0 := type_from_info (some fti)
      let t := match fti.name with
        | some sn =>
            match reg_is_class sn with
            | some true => { t0 with kind := TypeKind.tkClass }
            | _ => t0
        | none => t0
      { name := fname, ty := some t, has_default := false, is_const := c,
        default_value := none }
  | none =>
      match default_value with
      | some dv =>
          { name := fname, ty := some (type_new (get_expr_type scopes dv).kind),
            has_default := true, is_const := c, default_value := some dv }
      | none =>
          { name := fname, ty := none, has_default := false, is_const := c,
            default_value := none }

/-- The required-field check of `analyze_expr` struct initialization
(`semantic.c` lines 459–475): one missing-required-field diagnostic per
field without a default whose name is not among the provided named
arguments. -/
def missing_required_errors (fields : List StructFieldDef)
    (arg_names : List String) : Nat :=
  fields.countP (fun fd => !fd.has_default && !(arg_names.any (· = fd.name)))

/-! ## Runtime model (`zinc_runtime.h`) -/

/-- `ZnTag` from `zinc_runtime.h`. -/
inductive ZnTag where
  | znInt | znFloat | znBool | znChar | znString | znArray | znHash | znRef | znVal
deriving DecidableEq, Repr

/-- `ZnValue` from `zinc_runtime.h`: a tag and a union payload.  The
union's arms are modelled by a single integer (pointer arms as
addresses); only the int arm's value is relevant to the claims. -/
structure ZnValue where
  tag : ZnTag
  payload : Int
deriving DecidableEq, Repr

/-- The `nil` result of `__zn_hash_get` for a missing key
(`zinc_runtime.h` line 253): tag `ZN_TAG_INT`, integer payload 0. -/
def zn_hash_nil : ZnValue := { tag := ZnTag.znInt, payload := 0 }

/-- `ZnHash` from `zinc_runtime.h`, restricted to what `__zn_hash_get`
reads: the bucket array (`_cap` is its length), each bucket a chain of
key/value entries, and the key hashcode/equality callbacks installed at
allocation. -/
structure ZnHashM where
  buckets : List (List (ZnValue × ZnValue))
  key_hashcode : ZnValue → Nat
  key_equals : ZnValue → ZnValue → Bool

/-- `__zn_hash_get` from `zinc_runtime.h` lines 248–254: hash the key into
a bucket, scan the chain with the key-equality callback, and return the
stored value on a match; otherwise return the int-0 `nil` value.  The
function is total — a missing key never aborts. -/
def zn_hash_get (h : ZnHashM) (key : ZnValue) : ZnValue :=
  let idx := h.key_hashcode key % h.buckets.length
  match (h.buckets.getD idx []).find? (fun e => h.key_equals e.1 key) with
  | some e => e.2
  | none => zn_hash_nil

/-- `__zn_arr_get` from `zinc_runtime.h` lines 181–184: an out-of-bounds
index prints a diagnostic to stderr and calls `exit(1)`, modelled as an
`Except` error carrying the diagnostic text and the exit status. -/
def zn_arr_get (data : List ZnValue) (idx : Int) : Except (String × Nat) ZnValue :=
  if idx < 0 ∨ (data.length : Int) ≤ idx then
    Except.error ("Array index out of bounds", 1)
  else
    Except.ok (data.getD idx.toNat zn_hash_nil)

/-- A refcount header cell (`_rc` plus whether `free` has been called on
the object).  String literals use `_rc = -1` (immortal). -/
structure RcCell where
  rc : Int
  freed : Bool
deriving DecidableEq, Repr

/-- `__zn_str_retain` from `zinc_runtime.h` lines 50–52: increment unless
immortal (`_rc < 0`). -/
def zn_str_retain_rc (s : RcCell) : RcCell :=
  if 0 ≤ s.rc then { s with rc := s.rc + 1 } else s

/-- `__zn_str_release` from `zinc_runtime.h` lines 54–56: decrement unless
immortal, and free the object when the count reaches zero. -/
def zn_str_release_rc (s : RcCell) : RcCell :=
  if 0 ≤ s.rc then
    { rc := s.rc - 1, freed := s.freed ∨ s.rc - 1 = 0 }
  else s

/-- `__zn_str_from_int` (`zinc_runtime.h` lines 80–83) at the value level:
the decimal rendering of the integer (`snprintf %lld`). -/
def zn_str_from_int (v : Int) : String := toString v

/-- `__zn_str_from_bool` (`zinc_runtime.h` lines 90–92) at the value
level. -/
def zn_str_from_bool (b : Bool) : String := if b then "true" else "false"

/-- `__zn_str_concat` (`zinc_runtime.h` lines 67–76) at the value level:
byte concatenation. -/
def zn_str_concat (a b : String) : String := a ++ b

/-! ## Code generator (`codegen.c`, `codegen_expr.c`)

Emission is modelled as state passing: each generator function maps a
`CodegenContext` and its inputs to the updated context and the list of
emitted fragments, one fragment per `cg_emit`/`cg_emitf`/`fputs` call of
the C source (formatted strings are rendered inline).  The C recursion is
structural over the AST; the Lean model threads a `fuel` argument solely
to satisfy the termination checker — every recursive call passes `fuel`
and every function returns the neutral result at fuel 0, so any fuel at
least the recursion depth of the input reproduces the C behaviour. -/

/-- `op_to_str` from `ast.c`. -/
def op_to_str : OpKind → String
  | .opAdd => "+"
  | .opSub => "-"
  | .opMul => "*"
  | .opDiv => "/"
  | .opMod => "%"
  | .opEq => "=="
  | .opNe => "!="
  | .opLt => "<"
  | .opGt => ">"
  | .opLe => "<="
  | .opGe => ">="
  | .opAnd => "&&"
  | .opOr => "||"
  | .opNot => "!"
  | .opNeg => "-"
  | .opPos => "+"
  | .opInc => "++"
  | .opDec => "--"
  | .opAssign => "="
  | .opAddAssign => "+="
  | .opSubAssign => "-="
  | .opMulAssign => "*="
  | .opDivAssign => "/="
  | .opModAssign => "%="

/-- `type_to_c` from `codegen.c` lines 51–63. -/
def type_to_c : TypeKind → String
  | .tkInt => "int64_t"
  | .tkFloat => "double"
  | .tkString => "ZnString*"
  | .tkBool => "bool"
  | .tkChar => "char"
  | .tkVoid => "void"
  | .tkStruct => "/* struct */"
  | .tkClass => "/* class */"
  | _ => "int64_t"

/-- `opt_type_for` from `codegen.c` lines 65–73: the primitive-optional
wrapper struct, `NULL` for non-primitive kinds. -/
def opt_type_for : TypeKind → Option String
  | .tkInt => some "ZnOpt_int"
  | .tkFloat => some "ZnOpt_float"
  | .tkBool => some "ZnOpt_bool"
  | .tkChar => some "ZnOpt_char"
  | _ => none

/-- `expr_is_string` from `codegen.c` lines 79–81. -/
def expr_is_string (e : Node) : Bool :=
  match e.resolved_type with
  | some t => t.kind = TypeKind.tkString
  | none => false

/-- The resolved kind of a node, `TK_UNKNOWN` when the slot is empty
(matching the C idiom `expr->resolved_type ? ...->kind : TK_UNKNOWN`). -/
def rt_kind (e : Node) : TypeKind :=
  match e.resolved_type with
  | some t => t.kind
  | none => TypeKind.tkUnknown

/-- The comparison-operator test from `gen_expr` `NODE_BINOP`
(`codegen_expr.c` lines 377–379). -/
def op_is_comparison (op : OpKind) : Bool :=
  op = OpKind.opEq ∨ op = OpKind.opNe ∨ op = OpKind.opLt ∨
  op = OpKind.opGt ∨ op = OpKind.opLe ∨ op = OpKind.opGe

/-- `CGScopeVar` from `codegen.h`: one ARC-tracked binding (`codegen.c`
additionally flags struct-valued locals, released field-wise through the
registry; those are outside the fragment, which covers the plain
refcounted bindings released as `__<type_name>_release(<name>)`). -/
structure CGScopeVar where
  name : String
  type_name : String
deriving DecidableEq, Repr

/-- `CGScope` from `codegen.h`: the bindings of one ARC scope (newest
first, as `cg_scope_add_ref` prepends) and the loop marker. -/
structure CGScope where
  ref_vars : List CGScopeVar
  is_loop : Bool
deriving DecidableEq, Repr

/-- `CodegenContext` from `codegen.h`, restricted to the state the
fragment's emission reads and writes.  `loop_expr_temp` is an `int` that
is `-1` outside loop-expression context, modelled as an `Option`. -/
structure CodegenContext where
  indent_level : Nat
  temp_counter : Nat
  loop_expr_temp : Option Nat
  loop_expr_type : TypeKind
  loop_expr_optional : Bool
  scope : List CGScope
  narrowed : List String
deriving Repr

/-- `cg_emit_indent` from `codegen.c` lines 33–37: one four-space
fragment per indent level. -/
def cg_emit_indent (ctx : CodegenContext) : List String :=
  List.replicate ctx.indent_level "    "

/-- `emit_retain_call` from `codegen.c` lines 179–186 (strings and named
classes only; all other kinds emit nothing). -/
def emit_retain_call (e : String) (t : Ty) : List String :=
  match t.kind with
  | .tkString => ["__zn_str_retain(" ++ e ++ ")"]
  | .tkClass =>
      match t.name with
      | some n => ["__" ++ n ++ "_retain(" ++ e ++ ")"]
      | none => []
  | _ => []

/-- `emit_release_call` from `codegen.c` lines 188–195. -/
def emit_release_call (e : String) (t : Ty) : List String :=
  match t.kind with
  | .tkString => ["__zn_str_release(" ++ e ++ ")"]
  | .tkClass =>
      match t.name with
      | some n => ["__" ++ n ++ "_release(" ++ e ++ ")"]
      | none => []
  | _ => []

/-- `emit_retain_open` from `codegen.c` lines 198–205. -/
def emit_retain_open (t : Ty) : List String :=
  match t.kind with
  | .tkString => ["__zn_str_retain("]
  | .tkClass =>
      match t.name with
      | some n => ["__" ++ n ++ "_retain("]
      | none => []
  | _ => []

/-- `emit_release_open` from `codegen.c` lines 207–214. -/
def emit_release_open (t : Ty) : List String :=
  match t.kind with
  | .tkString => ["__zn_str_release("]
  | .tkClass =>
      match t.name with
      | some n => ["__" ++ n ++ "_release("]
      | none => []
  | _ => []

/-- `emit_var_release` from `codegen.c` lines 144–152 (plain refcounted
binding: indent then `__<type_name>_release(<name>);`). -/
def emit_var_release (ctx : CodegenContext) (v : CGScopeVar) : List String :=
  cg_emit_indent ctx ++ ["__" ++ v.type_name ++ "_release(" ++ v.name ++ ");\n"]

/-- The releases of one scope's bindings, in chain order. -/
def scope_releases (ctx : CodegenContext) (s : CGScope) : List String :=
  (s.ref_vars.map (emit_var_release ctx)).flatten

/-- `emit_scope_releases` from `codegen.c` lines 154–159: the current
scope only. -/
def emit_scope_releases (ctx : CodegenContext) : List String :=
  match ctx.scope with
  | [] => []
  | s :: _ => scope_releases ctx s

/-- `emit_all_scope_releases` from `codegen.c` lines 161–167: every scope
on the stack, innermost first. -/
def emit_all_scope_releases (ctx : CodegenContext) : List String :=
  (ctx.scope.map (scope_releases ctx)).flatten

/-- `find_loop_scope` from `codegen.c` lines 169–174: the innermost scope
flagged `is_loop`. -/
def find_loop_scope (stack : List CGScope) : Option CGScope :=
  stack.find? (·.is_loop)

/-- The release loop of `gen_stmt` `NODE_BREAK`/`NODE_CONTINUE`
(`codegen_expr.c` lines 1209–1214 and 1263–1268): walk the scope stack
from the current scope outward, releasing every binding of every scope,
and stop after the scope `find_loop_scope` returned — which is the first
scope flagged `is_loop`.  (Callers only run this when `find_loop_scope`
succeeded.) -/
def gen_unwind_releases (ctx : CodegenContext) : List CGScope → List String
  | [] => []
  | s :: rest =>
      scope_releases ctx s ++ (if s.is_loop then [] else gen_unwind_releases ctx rest)

/-- `cg_push_scope` from `codegen.c` lines 85–90. -/
def cg_push_scope (ctx : CodegenContext) (is_loop : Bool) : CodegenContext :=
  { ctx with scope := ⟨[], is_loop⟩ :: ctx.scope }

/-- `cg_pop_scope` from `codegen.c` lines 92–104. -/
def cg_pop_scope (ctx : CodegenContext) : CodegenContext :=
  { ctx with scope := ctx.scope.tail }

/-- `cg_scope_add_ref` from `codegen.c` lines 106–112: prepend the
binding to the current scope's chain. -/
def cg_scope_add_ref (ctx : CodegenContext) (name type_name : String) : CodegenContext :=
  match ctx.scope with
  | [] => ctx
  | s :: rest =>
      { ctx with scope := { s with ref_vars := ⟨name, type_name⟩ :: s.ref_vars } :: rest }

/-- `scope_track_ref` from `codegen_expr.c` lines 117–133 (the
struct-valued branch, which consults the registry, is outside the
fragment). -/
def scope_track_ref (ctx : CodegenContext) (name : String) (t : Option Ty) : CodegenContext :=
  match t with
  | none => ctx
  | some ty =>
      match ty.kind with
      | .tkString => cg_scope_add_ref ctx name "zn_str"
      | .tkClass =>
          match ty.name with
          | some n => cg_scope_add_ref ctx name n
          | none => ctx
      | .tkArray => cg_scope_add_ref ctx name "zn_arr"
      | .tkHash => cg_scope_add_ref ctx name "zn_hash"
      | _ => ctx

/-- `emit_ref_temp_decl` from `codegen_expr.c` lines 108–114. -/
def emit_ref_temp_decl (name : String) (t : Ty) : List String :=
  match t.kind, t.name with
  | .tkClass, some n => [n ++ " *" ++ name ++ " = "]
  | _, _ => [type_to_c t.kind ++ " " ++ name ++ " = "]

/-- `emit_retain` from `codegen_expr.c` lines 73–80: skip when the type
is absent or the value is fresh; otherwise, for refcounted kinds, indent
and emit the retain call. -/
def emit_retain (ctx : CodegenContext) (name : String) (value : Node)
    (t : Option Ty) : List String :=
  match t with
  | none => []
  | some ty =>
      if value.is_fresh_alloc then []
      else if is_ref_type ty.kind then
        cg_emit_indent ctx ++ emit_retain_call name ty ++ [";\n"]
      else []

/-- `count_string_concat_parts` from `codegen_expr.c` lines 230–238. -/
def count_string_concat_parts : Node → Nat
  | .nBinop rt fr l op r =>
      if expr_is_string (.nBinop rt fr l op r) ∧ op = OpKind.opAdd then
        count_string_concat_parts l + count_string_concat_parts r
      else 1
  | _ => 1

/-- `flatten_string_concat` from `codegen_expr.c` lines 241–249: the
left-to-right leaf sequence of a string-`+` subtree. -/
def flatten_string_concat : Node → List Node
  | e@(.nBinop _ _ l op r) =>
      if expr_is_string e ∧ op = OpKind.opAdd then
        flatten_string_concat l ++ flatten_string_concat r
      else [e]
  | e => [e]

mutual

/-- `gen_expr` from `codegen_expr.c` lines 332–1108, restricted to the
fragment (value-form `if`/`while`/`for`, calls, container literals and
access paths are outside it; the C `default:` arm emits nothing, and so
do the fragment's statement-shaped nodes when they reach `gen_expr`). -/
def gen_expr (fuel : Nat) (ctx : CodegenContext) (e : Node) :
    CodegenContext × List String :=
  match fuel with
  | 0 => (ctx, [])
  | fuel + 1 =>
      match e with
      | .nInt _ _ v => (ctx, [toString v])
      | .nString _ _ sid _ => (ctx, ["(ZnString*)&__zn_str_" ++ toString sid])
      | .nBool _ _ b => (ctx, [if b then "true" else "false"])
      | .nIdent _ _ name =>
          if ctx.narrowed.contains name then (ctx, [name ++ "._val"])
          else (ctx, [name])
      | .nBinop rt fr l op r =>
          if op = OpKind.opAdd ∧ expr_is_string (.nBinop rt fr l op r) then
            gen_string_concat fuel ctx (.nBinop rt fr l op r)
          else if op_is_comparison op ∧ (expr_is_string l ∨ expr_is_string r) then
            let (ctx1, lf) := gen_expr fuel ctx l
            let (ctx2, rf) := gen_expr fuel ctx1 r
            (ctx2, ["(strcmp(("] ++ lf ++ [")->_data, ("] ++ rf ++
                   [")->_data) " ++ op_to_str op ++ " 0)"])
          else
            let (ctx1, lf) := gen_expr fuel ctx l
            let (ctx2, rf) := gen_expr fuel ctx1 r
            (ctx2, ["("] ++ lf ++ [" " ++ op_to_str op ++ " "] ++ rf ++ [")"])
      | .nUnaryop _ _ op operand =>
          let (ctx1, f) := gen_expr fuel ctx operand
          (ctx1, ["(", op_to_str op] ++ f ++ [")"])
      | .nOptionalCheck _ _ operand =>
          if is_ref_type (rt_kind operand) then
            let (ctx1, f) := gen_expr fuel ctx operand
            (ctx1, ["("] ++ f ++ [" != NULL)"])
          else
            match operand with
            | .nIdent _ _ nm => (ctx, ["(" ++ nm ++ "._has)"])
            | _ =>
                let (ctx1, f) := gen_expr fuel ctx operand
                (ctx1, ["("] ++ f ++ ["._has)"])
      | .nAssign _ _ tgt value =>
          let (ctx1, tf) := gen_expr fuel ctx tgt
          let (ctx2, vf) := gen_expr fuel ctx1 value
          (ctx2, tf ++ [" = "] ++ vf)
      | _ => (ctx, [])

/-- `gen_coerce_to_string` from `codegen_expr.c` lines 212–227. -/
def gen_coerce_to_string (fuel : Nat) (ctx : CodegenContext) (e : Node) :
    CodegenContext × List String :=
  match fuel with
  | 0 => (ctx, [])
  | fuel + 1 =>
      let t := rt_kind e
      if t = TypeKind.tkString then gen_expr fuel ctx e
      else
        match t with
        | .tkInt =>
            let (ctx1, f) := gen_expr fuel ctx e
            (ctx1, ["__zn_str_from_int("] ++ f ++ [")"])
        | .tkFloat =>
            let (ctx1, f) := gen_expr fuel ctx e
            (ctx1, ["__zn_str_from_float("] ++ f ++ [")"])
        | .tkBool =>
            let (ctx1, f) := gen_expr fuel ctx e
            (ctx1, ["__zn_str_from_bool("] ++ f ++ [")"])
        | .tkChar =>
            let (ctx1, f) := gen_expr fuel ctx e
            (ctx1, ["__zn_str_from_char("] ++ f ++ [")"])
        | _ => gen_expr fuel ctx e

/-- Pass 1 of `gen_string_concat` (`codegen_expr.c` lines 262–273):
pre-evaluate every non-string leaf into a `__c<n>` coercion temp,
recording for each leaf its temp number (`-1`, here `none`, for string
leaves, which emit nothing in this pass). -/
def gen_concat_coerce (fuel : Nat) (ctx : CodegenContext) (leaves : List Node) :
    CodegenContext × List String × List (Option Nat) :=
  match fuel with
  | 0 => (ctx, [], [])
  | fuel + 1 =>
      match leaves with
      | [] => (ctx, [], [])
      | leaf :: rest =>
          if rt_kind leaf ≠ TypeKind.tkString then
            let c := ctx.temp_counter
            let ctxA := { ctx with temp_counter := c + 1 }
            let (ctxB, f) := gen_coerce_to_string fuel ctxA leaf
            let (ctxC, fs, cos) := gen_concat_coerce fuel ctxB rest
            (ctxC, (["ZnString *__c" ++ toString c ++ " = "] ++ f ++ ["; "]) ++ fs,
             some c :: cos)
          else
            let (ctxC, fs, cos) := gen_concat_coerce fuel ctx rest
            (ctxC, fs, none :: cos)

/-- Pass 2 of `gen_string_concat` (`codegen_expr.c` lines 278–308),
iteration `i` folding leaf `i+1` into `__t<base+i>`: the left operand is
the first leaf (or its coercion temp) at `i = 0` and the previous
intermediate otherwise; after each fold the consumed coercion temps are
released, and from `i = 1` on the previous intermediate is released. -/
def gen_concat_steps (fuel : Nat) (ctx : CodegenContext) (base i : Nat)
    (leaf0 : Node) (c0 : Option Nat) (rest : List (Node × Option Nat)) :
    CodegenContext × List String :=
  match fuel with
  | 0 => (ctx, [])
  | fuel + 1 =>
      match rest with
      | [] => (ctx, [])
      | (leaf, c) :: rest2 =>
          let t := base + i
          let head := ["ZnString *__t" ++ toString t ++ " = __zn_str_concat("]
          let (ctx1, lhs) :=
            if i = 0 then
              match c0 with
              | some cc => (ctx, ["__c" ++ toString cc])
              | none => gen_expr fuel ctx leaf0
            else (ctx, ["__t" ++ toString (t - 1)])
          let (ctx2, rhs) :=
            match c with
            | some cc => (ctx1, ["__c" ++ toString cc])
            | none => gen_expr fuel ctx1 leaf
          let rel0 :=
            if i = 0 then
              match c0 with
              | some cc => ["__zn_str_release(__c" ++ toString cc ++ "); "]
              | none => []
            else []
          let relC :=
            match c with
            | some cc => ["__zn_str_release(__c" ++ toString cc ++ "); "]
            | none => []
          let relPrev :=
            if 0 < i then ["__zn_str_release(__t" ++ toString (t - 1) ++ "); "]
            else []
          let (ctx3, tailF) := gen_concat_steps fuel ctx2 base (i + 1) leaf0 c0 rest2
          (ctx3, head ++ lhs ++ [", "] ++ rhs ++ ["); "] ++
                 rel0 ++ relC ++ relPrev ++ tailF)

/-- `gen_string_concat` from `codegen_expr.c` lines 253–313: flatten the
subtree, pre-coerce the non-string leaves, reserve `n-1` intermediate
temps, fold the leaves left-to-right, and yield the last intermediate as
the statement-expression result. -/
def gen_string_concat (fuel : Nat) (ctx : CodegenContext) (e : Node) :
    CodegenContext × List String :=
  match fuel with
  | 0 => (ctx, [])
  | fuel + 1 =>
      let leaves := flatten_string_concat e
      let n := leaves.length
      let (ctx1, coF, cos) := gen_concat_coerce fuel ctx leaves
      let base := ctx1.temp_counter
      let ctx2 := { ctx1 with temp_counter := base + (n - 1) }
      match leaves, cos with
      | leaf0 :: lrest, c0 :: crest =>
          let (ctx3, stF) := gen_concat_steps fuel ctx2 base 0 leaf0 c0 (lrest.zip crest)
          (ctx3, ["(\x7b "] ++ coF ++ stF ++
                 ["__t" ++ toString (base + n - 2) ++ "; \x7d)"])
      | _, _ =>
          (ctx2, ["(\x7b "] ++ coF ++
                 ["__t" ++ toString (base + n - 2) ++ "; \x7d)"])

/-- The carried-value publication of `gen_stmt`
`NODE_BREAK`/`NODE_CONTINUE` (`codegen_expr.c` lines 1217–1256 and
1271–1310 — the two blocks are textually identical): for a refcounted
value, pre-evaluate into a temp, retain it unless fresh, release the
current loop temp, then assign (retain-before-release); for other values,
assign directly.  Ends with the trailing indent the C emits before
`break`/`continue`. -/
def gen_loop_value_publish (fuel : Nat) (ctx : CodegenContext) (lt : Nat)
    (bv : Node) : CodegenContext × List String :=
  match fuel with
  | 0 => (ctx, [])
  | fuel + 1 =>
      let is_opt := ctx.loop_expr_optional ∧ (opt_type_for ctx.loop_expr_type).isSome
      match bv.resolved_type with
      | some vt =>
          if is_ref_type vt.kind then
            let tv := ctx.temp_counter
            let ctxA := { ctx with temp_counter := tv + 1 }
            let tname := "__t" ++ toString tv
            let (ctxB, vf) := gen_expr fuel ctxA bv
            let retF :=
              if bv.is_fresh_alloc then []
              else emit_retain_call tname vt ++ [";\n"] ++ cg_emit_indent ctxB
            let lbuf :=
              if is_opt then "__loop_" ++ toString lt ++ "._val"
              else "__loop_" ++ toString lt
            let relF := emit_release_call lbuf vt ++ [";\n"] ++ cg_emit_indent ctxB
            let asgF :=
              if is_opt then
                ["__loop_" ++ toString lt ++ "._has = true; __loop_" ++
                 toString lt ++ "._val = " ++ tname ++ ";\n"]
              else ["__loop_" ++ toString lt ++ " = " ++ tname ++ ";\n"]
            (ctxB, emit_ref_temp_decl tname vt ++ vf ++ [";\n"] ++
                   cg_emit_indent ctxB ++ retF ++ relF ++ asgF ++
                   cg_emit_indent ctxB)
          else
            let (ctxB, vf) := gen_expr fuel ctx bv
            let pre :=
              if is_opt then
                ["__loop_" ++ toString lt ++ "._has = true; __loop_" ++
                 toString lt ++ "._val = "]
              else ["__loop_" ++ toString lt ++ " = "]
            (ctxB, pre ++ vf ++ [";\n"] ++ cg_emit_indent ctxB)
      | none =>
          let (ctxB, vf) := gen_expr fuel ctx bv
          let pre :=
            if is_opt then
              ["__loop_" ++ toString lt ++ "._has = true; __loop_" ++
               toString lt ++ "._val = "]
            else ["__loop_" ++ toString lt ++ " = "]
          (ctxB, pre ++ vf ++ [";\n"] ++ cg_emit_indent ctxB)

/-- `gen_for_header` from `codegen_expr.c` lines 178–200. -/
def gen_for_header (fuel : Nat) (ctx : CodegenContext) (init : Option Node)
    (cond : Node) (update : Option Node) : CodegenContext × List String :=
  match fuel with
  | 0 => (ctx, [])
  | fuel + 1 =>
      let (ctx1, initF) :=
        match init with
        | some (.nDecl _ _ nm v c) =>
            let t := rt_kind v
            let head :=
              if c then ["const " ++ type_to_c t ++ " " ++ nm ++ " = "]
              else [type_to_c t ++ " " ++ nm ++ " = "]
            let (ctxA, vf) := gen_expr fuel ctx v
            (ctxA, head ++ vf)
        | some other => gen_expr fuel ctx other
        | none => (ctx, [])
      let (ctx2, condF) := gen_expr fuel ctx1 cond
      let (ctx3, updF) :=
        match update with
        | some u => gen_expr fuel ctx2 u
        | none => (ctx2, [])
      (ctx3, ["for ("] ++ initF ++ ["; "] ++ condF ++ ["; "] ++ updF ++ [") "])

/-- `gen_block_with_scope` from `codegen_expr.c` lines 315–326: brace,
indent, push an ARC scope (loop-flagged for loop bodies), generate the
statements, release the scope's bindings, pop, unindent, brace. -/
def gen_block_with_scope (fuel : Nat) (ctx : CodegenContext) (block : Node)
    (is_loop : Bool) : CodegenContext × List String :=
  match fuel with
  | 0 => (ctx, [])
  | fuel + 1 =>
      match block with
      | .nBlock _ _ stmts =>
          let ctx1 := { ctx with indent_level := ctx.indent_level + 1 }
          let ctx2 := cg_push_scope ctx1 is_loop
          let (ctx3, sF) := gen_stmts fuel ctx2 stmts
          let relF := emit_scope_releases ctx3
          let ctx4 := cg_pop_scope ctx3
          let ctx5 := { ctx4 with indent_level := ctx4.indent_level - 1 }
          (ctx5, ["\x7b\n"] ++ sF ++ relF ++ cg_emit_indent ctx5 ++ ["\x7d"])
      | _ => (ctx, [])

/-- `gen_block` from `codegen_expr.c` lines 328–330. -/
def gen_block (fuel : Nat) (ctx : CodegenContext) (block : Node) :
    CodegenContext × List String :=
  match fuel with
  | 0 => (ctx, [])
  | fuel + 1 => gen_block_with_scope fuel ctx block false

/-- `gen_stmt` from `codegen_expr.c` lines 1110–1547, restricted to the
fragment: declarations, `if` (with optional narrowing), statement-form
loops, `break`/`continue` with scope unwinding and value publication,
assignment to a plain variable, and the expression-statement default.
(`return`, index/field assignment and function definitions are outside
the fragment.)  Every case begins with the `cg_emit_indent` the C emits
before the switch. -/
def gen_stmt (fuel : Nat) (ctx : CodegenContext) (node : Node) :
    CodegenContext × List String :=
  match fuel with
  | 0 => (ctx, [])
  | fuel + 1 =>
      let ind := cg_emit_indent ctx
      match node with
      | .nDecl _ _ name value is_const =>
          let cq := if is_const then "const " else ""
          let vt := value.resolved_type
          let t := rt_kind value
          let val_is_optional :=
            match vt with
            | some ty => ty.is_optional
            | none => false
          let head :=
            match val_is_optional, opt_type_for t with
            | true, some opt => [cq ++ opt ++ " " ++ name ++ " = "]
            | _, _ =>
                match t, vt with
                | .tkClass, some ty =>
                    match ty.name with
                    | some n =>
                        if is_const then [n ++ " *const " ++ name ++ " = "]
                        else [n ++ " *" ++ name ++ " = "]
                    | none => [cq ++ type_to_c t ++ " " ++ name ++ " = "]
                | .tkStruct, some ty =>
                    match ty.name with
                    | some n => [cq ++ n ++ " " ++ name ++ " = "]
                    | none => [cq ++ type_to_c t ++ " " ++ name ++ " = "]
                | .tkString, _ => [type_to_c t ++ " " ++ name ++ " = "]
                | .tkArray, _ => [type_to_c t ++ " " ++ name ++ " = "]
                | .tkHash, _ => [type_to_c t ++ " " ++ name ++ " = "]
                | _, _ => [cq ++ type_to_c t ++ " " ++ name ++ " = "]
          let (ctx1, vf) := gen_expr fuel ctx value
          let retF := emit_retain ctx1 name value vt
          let ctx2 := scope_track_ref ctx1 name vt
          (ctx2, ind ++ head ++ vf ++ [";\n"] ++ retF)
      | .nIf _ _ cond then_b else_b =>
          let narrowing : Option String :=
            match cond with
            | .nOptionalCheck _ _ (.nIdent ort _ x) =>
                match ort with
                | some ot =>
                    if ot.is_optional ∧ ¬ is_ref_type ot.kind then some x else none
                | none => none
            | _ => none
          let (ctx1, condF) := gen_expr fuel ctx cond
          let (ctx2, thenF) :=
            match narrowing, then_b with
            | some x, .nBlock brt bfr bstmts =>
                let ctxN := { ctx1 with narrowed := x :: ctx1.narrowed }
                let (ctxB, tf) := gen_block fuel ctxN (.nBlock brt bfr bstmts)
                ({ ctxB with narrowed := ctx1.narrowed }, tf)
            | _, _ => gen_block fuel ctx1 then_b
          let (ctx3, elseF) :=
            match else_b with
            | some e =>
                match e with
                | .nIf ert efr ec et ee =>
                    let (ctxE, ef) := gen_stmt fuel ctx2 (.nIf ert efr ec et ee)
                    (ctxE, [" else "] ++ ef)
                | _ =>
                    let (ctxE, ef) := gen_block fuel ctx2 e
                    (ctxE, [" else "] ++ ef ++ ["\n"])
            | none => (ctx2, ["\n"])
          (ctx3, ind ++ ["if ("] ++ condF ++ [") "] ++ thenF ++ elseF)
      | .nWhile _ _ cond body =>
          let (ctx1, condF) := gen_expr fuel ctx cond
          let (ctx2, bodyF) := gen_block_with_scope fuel ctx1 body true
          (ctx2, ind ++ ["while ("] ++ condF ++ [") "] ++ bodyF ++ ["\n"])
      | .nFor _ _ init cond update body =>
          let (ctx1, headF) := gen_for_header fuel ctx init cond update
          let (ctx2, bodyF) := gen_block_with_scope fuel ctx1 body true
          (ctx2, ind ++ headF ++ bodyF ++ ["\n"])
      | .nBreak _ _ value =>
          let relF :=
            match find_loop_scope ctx.scope with
            | none => []
            | some _ => gen_unwind_releases ctx ctx.scope ++ cg_emit_indent ctx
          let (ctx2, pubF) :=
            match ctx.loop_expr_temp, value with
            | some lt, some bv => gen_loop_value_publish fuel ctx lt bv
            | _, _ => (ctx, [])
          (ctx2, ind ++ relF ++ pubF ++ ["break;\n"])
      | .nContinue _ _ value =>
          let relF :=
            match find_loop_scope ctx.scope with
            | none => []
            | some _ => gen_unwind_releases ctx ctx.scope ++ cg_emit_indent ctx
          let (ctx2, pubF) :=
            match ctx.loop_expr_temp, value with
            | some lt, some cv => gen_loop_value_publish fuel ctx lt cv
            | _, _ => (ctx, [])
          (ctx2, ind ++ relF ++ pubF ++ ["continue;\n"])
      | .nAssign art afr tgt value =>
          match tgt with
          | .nIdent _ _ name =>
              let vtype := value.resolved_type
              match vtype with
              | some vt =>
                  if is_ref_type vt.kind then
                    if vt.kind = TypeKind.tkClass then
                      if ¬ value.is_fresh_alloc then
                        let t := ctx.temp_counter
                        let ctxA := { ctx with temp_counter := t + 1 }
                        let (ctxB, vf) := gen_expr fuel ctxA value
                        (ctxB,
                         ind ++
                         ["struct " ++ vt.name.getD "" ++ " *__t" ++ toString t ++ " = "] ++
                         vf ++ [";\n"] ++ cg_emit_indent ctxB ++
                         emit_retain_open vt ++ ["__t" ++ toString t ++ ");\n"] ++
                         cg_emit_indent ctxB ++
                         emit_release_call name vt ++ [";\n"] ++ cg_emit_indent ctxB ++
                         [name ++ " = __t" ++ toString t ++ ";\n"])
                      else
                        let (ctxB, vf) := gen_expr fuel ctx value
                        (ctxB,
                         ind ++ emit_release_call name vt ++ [";\n"] ++
                         cg_emit_indent ctxB ++ [name ++ " = "] ++ vf ++ [";\n"])
                    else
                      let (ctxB, vf) := gen_expr fuel ctx value
                      let retF :=
                        if ¬ value.is_fresh_alloc then
                          cg_emit_indent ctxB ++ emit_retain_call name vt ++ [";\n"]
                        else []
                      (ctxB,
                       ind ++ emit_release_call name vt ++ [";\n"] ++
                       cg_emit_indent ctxB ++ [name ++ " = "] ++ vf ++ [";\n"] ++ retF)
                  else
                    let (ctxB, f) := gen_expr fuel ctx (.nAssign art afr tgt value)
                    (ctxB, ind ++ f ++ [";\n"])
              | none =>
                  let (ctxB, f) := gen_expr fuel ctx (.nAssign art afr tgt value)
                  (ctxB, ind ++ f ++ [";\n"])
          | _ => (ctx, ind)
      | other =>
          let (ctxB, f) := gen_expr fuel ctx other
          (ctxB, ind ++ f ++ [";\n"])

/-- `gen_stmts` from `codegen_expr.c` lines 1549–1556 (the `#line`
directive of `cg_emit_line` depends on source line numbers, which the
fragment's nodes do not carry; function definitions are skipped by the C
and are outside the fragment). -/
def gen_stmts (fuel : Nat) (ctx : CodegenContext) (stmts : List Node) :
    CodegenContext × List String :=
  match fuel with
  | 0 => (ctx, [])
  | fuel + 1 =>
      match stmts with
      | [] => (ctx, [])
      | s :: rest =>
          let (ctx1, f) := gen_stmt fuel ctx s
          let (ctx2, fs) := gen_stmts fuel ctx1 rest
          (ctx2, f ++ fs)

end

/-- The built-in `print` block of `gen_expr` `NODE_CALL`
(`codegen_expr.c` lines 426–432): write the argument string's bytes to
`stdout` through `fputs` inside a statement expression. -/
def gen_print_call (fuel : Nat) (ctx : CodegenContext) (args : List Node) :
    CodegenContext × List String :=
  match args with
  | a :: _ =>
      let (ctx1, f) := gen_expr fuel ctx a
      (ctx1, ["(\x7b fputs(("] ++ f ++ [")->_data, stdout); \x7d)"])
  | [] => (ctx, ["(\x7b fputs(("] ++ [")->_data, stdout); \x7d)"])

/-! ## Concrete inputs used by the claim theorems -/

/-- A fresh codegen context (`codegen_init`, `codegen.c` lines 218–230:
`calloc` zeroes the record and `loop_expr_temp` starts at `-1`). -/
def cg_ctx0 : CodegenContext :=
  { indent_level := 0, temp_counter := 0, loop_expr_temp := none,
    loop_expr_type := TypeKind.tkUnknown, loop_expr_optional := false,
    scope := [], narrowed := [] }

/-- Resolved `string`. -/
def tyString : Ty := { kind := TypeKind.tkString, is_optional := false, name := none }

/-- Resolved `int`. -/
def tyInt : Ty := { kind := TypeKind.tkInt, is_optional := false, name := none }

/-- Resolved `bool`. -/
def tyBool : Ty := { kind := TypeKind.tkBool, is_optional := false, name := none }

/-- A resolved class type named `Box`. -/
def tyBoxClass : Ty := { kind := TypeKind.tkClass, is_optional := false, name := some "Box" }

/-- The statement `s = s` for a string variable `s` — the self-assignment
of a refcounted variable (post-analysis: the RHS identifier carries
resolved type `string` and is not fresh). -/
def c1AssignString : Node :=
  Node.nAssign none false (.nIdent none false "s") (.nIdent (some tyString) false "s")

/-- The statement `x = c` for class-typed variables (RHS not fresh). -/
def c1AssignClass : Node :=
  Node.nAssign none false (.nIdent none false "x") (.nIdent (some tyBoxClass) false "c")

/-- The resolved AST of `"a" + 1 + true` (left-associated; both `+` nodes
are string-typed and fresh, the leaves are the literal `"a"` with string
id 0, the int literal `1` and the bool literal `true`). -/
def c7Tree : Node :=
  Node.nBinop (some tyString) true
    (Node.nBinop (some tyString) true
      (.nString (some tyString) false 0 "a") OpKind.opAdd
      (.nInt (some tyInt) false 1))
    OpKind.opAdd
    (.nBool (some tyBool) false true)

/-- A fragment that allocates a fresh string at runtime: the four
`__zn_str_from_*` coercions and `__zn_str_concat` each return a
malloc'd string with refcount 1 (`zinc_runtime.h` lines 58–96). -/
def frag_allocates (s : String) : Bool :=
  s = "__zn_str_from_int(" || s = "__zn_str_from_float(" ||
  s = "__zn_str_from_bool(" || s = "__zn_str_from_char(" ||
  List.isSuffixOf "__zn_str_concat(".data s.data

/-- A fragment that releases a string temp. -/
def frag_releases (s : String) : Bool :=
  List.isPrefixOf "__zn_str_release(".data s.data

/-- The runtime string value a concat leaf evaluates to: literal bytes
for string literals, and the `__zn_str_from_*` rendering the generated
coercion calls produce for int/bool leaves. -/
def concat_leaf_value : Node → Option String
  | .nString _ _ _ sv => some sv
  | .nInt _ _ v => some (zn_str_from_int v)
  | .nBool _ _ b => some (zn_str_from_bool b)
  | _ => none

/-- The value computed by the emitted left-to-right `__zn_str_concat`
chain: the leaves' values folded left with `__zn_str_concat`, exactly as
the `__t<base+i> = __zn_str_concat(__t<base+i-1>, leaf_{i+1})` sequence
does. -/
def concat_result (e : Node) : Option String :=
  match (flatten_string_concat e).mapM concat_leaf_value with
  | some (v :: vs) => some (vs.foldl zn_str_concat v)
  | _ => none

/-- The exact fragment list `gen_string_concat` emits for `"a" + 1 + true`
starting from a fresh context. -/
def c7Frags : List String :=
  ["(\x7b ",
   "ZnString *__c0 = ", "__zn_str_from_int(", "1", ")", "; ",
   "ZnString *__c1 = ", "__zn_str_from_bool(", "true", ")", "; ",
   "ZnString *__t2 = __zn_str_concat(", "(ZnString*)&__zn_str_0", ", ", "__c0", "); ",
   "__zn_str_release(__c0); ",
   "ZnString *__t3 = __zn_str_concat(", "__t2", ", ", "__c1", "); ",
   "__zn_str_release(__c1); ", "__zn_str_release(__t2); ",
   "__t3; \x7d)"]

/-- An ARC scope stack for the break/continue witness: an inner plain
scope holding `a`, a loop scope holding `b`, and an outer plain scope
holding `c` (all string bindings). -/
def c2Ctx : CodegenContext :=
  { cg_ctx0 with
      scope := [⟨[⟨"a", "zn_str"⟩], false⟩, ⟨[⟨"b", "zn_str"⟩], true⟩,
                ⟨[⟨"c", "zn_str"⟩], false⟩] }

/-- Symbol table binding `x` to `int?`, the narrowing witness input. -/
def c3Scopes : List Scope :=
  [[("x", ⟨{ kind := TypeKind.tkInt, is_optional := true, name := none }, false⟩)]]

/-- `int?` as a resolved type. -/
def tyIntOpt : Ty := { kind := TypeKind.tkInt, is_optional := true, name := none }

/-! ## Theorems -/

/-- C5 counterexample: the claim states that `type_eq` requires matching
names whenever the kind is struct **or class**.  The code compares names
only for `TK_STRUCT`: two class types with equal kinds and optional flags
but different names (`A` vs `B`) are reported equal by `type_eq`, so the
claim's "if and only if" fails at this input. -/
theorem type_eq_class_name_counterexample :
    type_eq tyClassA tyClassB = true ∧
    tyClassA.kind = TypeKind.tkClass ∧ tyClassB.kind = TypeKind.tkClass ∧
    tyClassA.is_optional = tyClassB.is_optional ∧
    tyClassA.name ≠ tyClassB.name := by
  refine ⟨rfl, rfl, rfl, rfl, ?_⟩
  simp [tyClassA, tyClassB]

/-- C5 amended: `type_eq a b` is true iff the kinds are equal, the
optional flags are equal, and — whenever the kind is **struct** (not
class) — the names match.  Class types are compared by kind and optional
flag alone. -/
theorem type_eq_structural_characterization (a b : Ty) :
    type_eq a b = true ↔
      (a.kind = b.kind ∧ a.is_optional = b.is_optional ∧
       (a.kind = TypeKind.tkStruct → a.name = b.name)) := by
  unfold type_eq
  rcases a with ⟨ak, ao, an⟩
  rcases b with ⟨bk, bo, bn⟩
  by_cases hk : ak = bk
  · subst hk
    by_cases ho : ao = bo
    · subst ho
      by_cases hs : ak = TypeKind.tkStruct
      · simp [hs]
      · simp [hs]
    · simp [ho]
  · simp [hk]

/-- C4 counterexample: the claim says a while expression's result is
marked non-optional **iff** the condition is statically true.  For
`while true { break x }` with `x : int?`, the carried value's type is
already optional; the code clones it, and since the condition is
statically true it does not touch the flag — the result is `int?`
(optional) even though the condition is statically true, refuting the
"iff". -/
theorem analyze_while_optional_carry_counterexample :
    is_always_true condLitTrue = true ∧
    analyze_while_result
        (loop_result_of_breaks c4Scopes [Node.nIdent none false "x"]) condLitTrue =
      some { kind := TypeKind.tkInt, is_optional := true, name := none } := by
  constructor
  · rfl
  · rfl

/-- C4 amended: the analyzer assigns a while expression a **clone of the
carried value's type** whose optional flag is the carried flag forced on
when the condition is not statically true (so the result is non-optional
iff the condition is statically true **and** the carried type itself is
non-optional); a for expression's result always has the optional flag
forced on; no result is assigned when no `break`/`continue` carried a
value; and a condition is statically true exactly when it is the literal
`true` or the expression `!false`. -/
theorem analyze_loop_result_typing (cond : Node) (t : Ty) :
    analyze_while_result none cond = none ∧
    analyze_while_result (some t) cond =
      some { kind := t.kind, name := t.name,
             is_optional := t.is_optional || !is_always_true cond } ∧
    analyze_for_result (some t) =
      some { kind := t.kind, name := t.name, is_optional := true } ∧
    analyze_for_result none = none ∧
    (is_always_true cond = true ↔
      ((∃ rt fr, cond = Node.nBool rt fr true) ∨
       (∃ rt fr rt2 fr2,
         cond = Node.nUnaryop rt fr OpKind.opNot (Node.nBool rt2 fr2 false)))) := by
  refine ⟨rfl, ?_, rfl, rfl, ?_⟩
  · by_cases h : is_always_true cond = true
    · simp [analyze_while_result, type_clone, h]
    · simp only [Bool.not_eq_true] at h
      simp [analyze_while_result, type_clone, h]
  · constructor
    · intro h
      cases cond with
      | nBool rt fr b =>
          cases b with
          | false => exact Bool.noConfusion h
          | true => exact Or.inl ⟨rt, fr, rfl⟩
      | nUnaryop rt fr op inner =>
          cases op <;> first
            | exact Bool.noConfusion h
            | (cases inner <;> first
                | exact Bool.noConfusion h
                | (rename_i rt2 fr2 b
                   cases b with
                   | false => exact Or.inr ⟨rt, fr, rt2, fr2, rfl⟩
                   | true => exact Bool.noConfusion h))
      | nInt rt fr v => exact Bool.noConfusion h
      | nString rt fr sid sv => exact Bool.noConfusion h
      | nIdent rt fr n => exact Bool.noConfusion h
      | nBinop rt fr l op r => exact Bool.noConfusion h
      | nOptionalCheck rt fr o => exact Bool.noConfusion h
      | nBlock rt fr s => exact Bool.noConfusion h
      | nIf rt fr c tb eb => exact Bool.noConfusion h
      | nWhile rt fr c b => exact Bool.noConfusion h
      | nFor rt fr i c u b => exact Bool.noConfusion h
      | nBreak rt fr v => exact Bool.noConfusion h
      | nContinue rt fr v => exact Bool.noConfusion h
      | nDecl rt fr n v c => exact Bool.noConfusion h
      | nAssign rt fr tg v => exact Bool.noConfusion h
    · intro h
      rcases h with ⟨rt, fr, rfl⟩ | ⟨rt, fr, rt2, fr2, rfl⟩ <;> rfl

/-- C6 counterexample: the claim says a non-void result is assigned for
struct/class branches **only when the two branches' type names match**.
For `if c { a } else { b }` with `a : struct A` and `b : struct B`, the
kinds match but the names differ — the code still assigns a result (of
type struct `A`, the then branch's name; the else branch's name is never
compared). -/
theorem analyze_if_branch_name_counterexample :
    analyze_if_result c6Scopes [Node.nIdent none false "a"]
        (some [Node.nIdent none false "b"]) =
      some { kind := TypeKind.tkStruct, is_optional := false, name := some "A" } ∧
    (get_expr_type c6Scopes (Node.nIdent none false "a")).name ≠
      (get_expr_type c6Scopes (Node.nIdent none false "b")).name := by
  constructor
  · rfl
  · simp [get_expr_type, c6Scopes, lookup, lookup_local, type_clone, List.find?]

/-- C6 amended: with an else branch, a result is assigned iff both
branches end in expressions of equal kinds, that kind being neither
unknown nor void; branch **names are never compared** — the assigned
result carries the then branch's kind and (for struct/class) the then
branch's name.  Without an else branch, the result is the optional of the
then branch's type. -/
theorem analyze_if_result_typing (scopes : List Scope) (ts es : List Node) :
    ((analyze_if_result scopes ts (some es)).isSome = true ↔
      (∃ tn en, last_node ts = some tn ∧ last_node es = some en ∧
        (get_expr_type scopes tn).kind ≠ TypeKind.tkUnknown ∧
        (get_expr_type scopes tn).kind ≠ TypeKind.tkVoid ∧
        (get_expr_type scopes tn).kind = (get_expr_type scopes en).kind)) ∧
    (∀ r, analyze_if_result scopes ts (some es) = some r →
      r.is_optional = false ∧
      ∃ tn, last_node ts = some tn ∧ r.kind = (get_expr_type scopes tn).kind ∧
        ((r.kind = TypeKind.tkStruct ∨ r.kind = TypeKind.tkClass) →
          r.name = (get_expr_type scopes tn).name)) ∧
    (∀ tn, last_node ts = some tn →
      (get_expr_type scopes tn).kind ≠ TypeKind.tkUnknown →
      (get_expr_type scopes tn).kind ≠ TypeKind.tkVoid →
      analyze_if_result scopes ts none =
        some { kind := (get_expr_type scopes tn).kind, is_optional := true,
               name := none }) := by
  refine ⟨?_, ?_, ?_⟩
  · cases hts : last_node ts with
    | none => simp [analyze_if_result, hts]
    | some tn =>
        cases hes : last_node es with
        | none =>
            simp only [analyze_if_result, hts, hes]
            by_cases h1 : (get_expr_type scopes tn).kind = TypeKind.tkUnknown
            · simp [h1]
            · by_cases h2 : (get_expr_type scopes tn).kind = TypeKind.tkVoid
              · simp [h1, h2]
              · simp [h1, h2]
        | some en =>
            simp only [analyze_if_result, hts, hes]
            by_cases h1 : (get_expr_type scopes tn).kind = TypeKind.tkUnknown
            · simp [h1]
            · by_cases h2 : (get_expr_type scopes tn).kind = TypeKind.tkVoid
              · simp [h1, h2]
              · by_cases h3 :
                  (get_expr_type scopes tn).kind = (get_expr_type scopes en).kind
                · simp [h1, h2, h3]
                · simp [h1, h2, h3]
  · intro r hr
    cases hts : last_node ts with
    | none => simp [analyze_if_result, hts] at hr
    | some tn =>
        cases hes : last_node es with
        | none =>
            simp only [analyze_if_result, hts, hes] at hr
            by_cases h1 : (get_expr_type scopes tn).kind = TypeKind.tkUnknown
            · simp [h1] at hr
            · simp [h1] at hr
        | some en =>
            simp only [analyze_if_result, hts, hes] at hr
            split at hr
            · injection hr with hr
              subst hr
              refine ⟨rfl, tn, rfl, rfl, ?_⟩
              intro hk
              simp only [Ty.name]
              rw [if_pos hk]
            · exact Option.noConfusion hr
  · intro tn hts h1 h2
    simp [analyze_if_result, hts, h1, h2]

/-! ## C1 — assignment to a refcounted variable -/

/-- C1: for a **class**-typed RHS that is not fresh, the generated C does
retain the new value before releasing the variable's old value (`x = c`
emits the temp, `__Box_retain(__t0)`, then `__Box_release(x)`, then the
store).  But for a **string** (and likewise array/hash) target the
generator emits release–assign–retain: for the self-assignment `s = s`
the release of `s` comes first and the retain of `s` last.  On the
refcount model of `__zn_str_release`/`__zn_str_retain`
(`zinc_runtime.h`), running the emitted order on an object with refcount
1 frees the live object (and then retains freed storage), whereas the
claimed retain-before-release order leaves the object alive with its
count unchanged — so the code contradicts the claim for string targets. -/
theorem gen_assign_refcounted_order_violation :
    (gen_stmt 5 cg_ctx0 c1AssignClass).2 =
      ["struct Box *__t0 = ", "c", ";\n", "__Box_retain(", "__t0);\n",
       "__Box_release(x)", ";\n", "x = __t0;\n"] ∧
    (gen_stmt 5 cg_ctx0 c1AssignString).2 =
      ["__zn_str_release(s)", ";\n", "s = ", "s", ";\n",
       "__zn_str_retain(s)", ";\n"] ∧
    zn_str_retain_rc (zn_str_release_rc { rc := 1, freed := false }) =
      { rc := 1, freed := true } ∧
    zn_str_release_rc (zn_str_retain_rc { rc := 1, freed := false }) =
      { rc := 1, freed := false } := by
  refine ⟨rfl, rfl, ?_, ?_⟩ <;> decide

/-! ## C7 — string concatenation of `"a" + 1 + true` -/

/-- C7 counterexample: the claim says the generated code for
`let s = "a" + 1 + true` allocates exactly **three** temporary strings
and releases exactly **two**.  Counting the allocating fragments (the
`__zn_str_from_*` coercions and the `__zn_str_concat` folds, each of
which mallocs a fresh string per `zinc_runtime.h`) and the
`__zn_str_release` fragments in the emitted code gives **four**
allocations (two coercions plus two concats) and **three** releases. -/
theorem gen_string_concat_count_counterexample :
    (gen_string_concat 10 cg_ctx0 c7Tree).2.countP frag_allocates = 4 ∧
    (gen_string_concat 10 cg_ctx0 c7Tree).2.countP frag_releases = 3 ∧
    ¬ ((gen_string_concat 10 cg_ctx0 c7Tree).2.countP frag_allocates = 3 ∧
       (gen_string_concat 10 cg_ctx0 c7Tree).2.countP frag_releases = 2) := by
  refine ⟨rfl, rfl, ?_⟩
  intro hcl
  have h1 := hcl.1
  rw [show (gen_string_concat 10 cg_ctx0 c7Tree).2.countP frag_allocates = 4 from rfl]
    at h1
  exact absurd h1 (by decide)

/-- C7 amended: the concatenation is flattened into the left-to-right
leaves `"a"`, `1`, `true`; the two non-string leaves are coerced through
`__zn_str_from_int`/`__zn_str_from_bool`; adjacent pairs are folded with
`__zn_str_concat`; exactly **four** temporary strings are allocated and
exactly **three** of them are released before the final result `__t3`,
the sole fresh output, is yielded; the value computed by the emitted
concat chain is `"a1true"`, which `print` writes to stdout byte-for-byte
through `fputs`. -/
theorem gen_string_concat_a1true :
    (gen_string_concat 10 cg_ctx0 c7Tree).2 = c7Frags ∧
    c7Frags.countP frag_allocates = 4 ∧
    c7Frags.countP frag_releases = 3 ∧
    flatten_string_concat c7Tree =
      [.nString (some tyString) false 0 "a", .nInt (some tyInt) false 1,
       .nBool (some tyBool) false true] ∧
    concat_result c7Tree = some "a1true" ∧
    (gen_print_call 3 cg_ctx0 [Node.nIdent none false "s"]).2 =
      ["(\x7b fputs((", "s", ")->_data, stdout); \x7d)"] := by
  exact ⟨rfl, rfl, rfl, rfl, rfl, rfl⟩

/-! ## C2 — break/continue scope unwinding -/

/-- On a stack whose scopes up to the first loop scope are `pre ++ [s]`,
`find_loop_scope` returns that loop scope. -/
theorem find_loop_scope_append (pre : List CGScope) (s : CGScope)
    (post : List CGScope) (hpre : ∀ sc ∈ pre, sc.is_loop = false)
    (hs : s.is_loop = true) :
    find_loop_scope (pre ++ s :: post) = some s := by
  induction pre with
  | nil => simp [find_loop_scope, List.find?, hs]
  | cons a rest ih =>
      have ha : a.is_loop = false := hpre a (by simp)
      have ih2 := ih (fun sc hsc => hpre sc (by simp [hsc]))
      simp only [find_loop_scope, List.cons_append, List.find?, ha, cond_false]
      exact ih2

/-- The break/continue release walk covers exactly the scopes from the
current one through the first loop scope: on `pre ++ s :: post` with no
loop scope in `pre` and `s` a loop scope, it emits the releases of
`pre ++ [s]` and nothing from `post`. -/
theorem gen_unwind_releases_append (ctx : CodegenContext) (pre : List CGScope)
    (s : CGScope) (post : List CGScope)
    (hpre : ∀ sc ∈ pre, sc.is_loop = false) (hs : s.is_loop = true) :
    gen_unwind_releases ctx (pre ++ s :: post) =
      ((pre ++ [s]).map (scope_releases ctx)).flatten := by
  induction pre with
  | nil => simp [gen_unwind_releases, hs]
  | cons a rest ih =>
      have ha : a.is_loop = false := hpre a (by simp)
      have ih2 := ih (fun sc hsc => hpre sc (by simp [hsc]))
      simp only [List.cons_append, gen_unwind_releases, ha, if_neg, Bool.false_eq_true,
        not_false_iff, ite_false, List.map_cons, List.flatten_cons, List.append_eq, ih2]

/-- C2: every `break` and `continue` emitted inside a loop first emits
the release calls for every ARC-tracked binding of every scope from the
current scope up to **and including** the nearest enclosing loop scope
(`pre ++ [s]`), and for no scope beyond it (`post` does not contribute);
then, when the loop is in expression position and the statement carries a
value (`loop_expr_temp` set and a value present), it publishes the value
into the `__loop_<n>` temp; and only then emits the C `break;` /
`continue;`.  When the stack holds no loop scope at all, no releases are
emitted. -/
theorem gen_break_continue_release_range (fuel : Nat) (ctx : CodegenContext)
    (brt : Option Ty) (bfr : Bool) (value : Option Node)
    (pre : List CGScope) (s : CGScope) (post : List CGScope)
    (hpre : ∀ sc ∈ pre, sc.is_loop = false) (hs : s.is_loop = true)
    (hstack : ctx.scope = pre ++ s :: post) :
    (gen_stmt (fuel + 1) ctx (.nBreak brt bfr value) =
      ((match ctx.loop_expr_temp, value with
        | some lt, some bv => (gen_loop_value_publish fuel ctx lt bv).1
        | _, _ => ctx),
       cg_emit_indent ctx ++
       ((pre ++ [s]).map (scope_releases ctx)).flatten ++ cg_emit_indent ctx ++
       (match ctx.loop_expr_temp, value with
        | some lt, some bv => (gen_loop_value_publish fuel ctx lt bv).2
        | _, _ => []) ++
       ["break;\n"])) ∧
    (gen_stmt (fuel + 1) ctx (.nContinue brt bfr value) =
      ((match ctx.loop_expr_temp, value with
        | some lt, some cv => (gen_loop_value_publish fuel ctx lt cv).1
        | _, _ => ctx),
       cg_emit_indent ctx ++
       ((pre ++ [s]).map (scope_releases ctx)).flatten ++ cg_emit_indent ctx ++
       (match ctx.loop_expr_temp, value with
        | some lt, some cv => (gen_loop_value_publish fuel ctx lt cv).2
        | _, _ => []) ++
       ["continue;\n"])) ∧
    (∀ stack : List CGScope, (∀ sc ∈ stack, sc.is_loop = false) →
      find_loop_scope stack = none) := by
  have hfind : find_loop_scope ctx.scope = some s := by
    rw [hstack]; exact find_loop_scope_append pre s post hpre hs
  have hunwind : gen_unwind_releases ctx ctx.scope =
      ((pre ++ [s]).map (scope_releases ctx)).flatten := by
    rw [hstack]; exact gen_unwind_releases_append ctx pre s post hpre hs
  refine ⟨?_, ?_, ?_⟩
  · show (let ind := cg_emit_indent ctx
          let relF := match find_loop_scope ctx.scope with
            | none => []
            | some _ => gen_unwind_releases ctx ctx.scope ++ cg_emit_indent ctx
          let (ctx2, pubF) := match ctx.loop_expr_temp, value with
            | some lt, some bv => gen_loop_value_publish fuel ctx lt bv
            | _, _ => (ctx, [])
          (ctx2, ind ++ relF ++ pubF ++ ["break;\n"])) = _
    rw [hfind]
    simp only [hunwind]
    cases hlt : ctx.loop_expr_temp with
    | none => cases value <;> simp
    | some lt => cases value <;> simp
  · show (let ind := cg_emit_indent ctx
          let relF := match find_loop_scope ctx.scope with
            | none => []
            | some _ => gen_unwind_releases ctx ctx.scope ++ cg_emit_indent ctx
          let (ctx2, pubF) := match ctx.loop_expr_temp, value with
            | some lt, some cv => gen_loop_value_publish fuel ctx lt cv
            | _, _ => (ctx, [])
          (ctx2, ind ++ relF ++ pubF ++ ["continue;\n"])) = _
    rw [hfind]
    simp only [hunwind]
    cases hlt : ctx.loop_expr_temp with
    | none => cases value <;> simp
    | some lt => cases value <;> simp
  · intro stack hstackall
    induction stack with
    | nil => rfl
    | cons a rest ih =>
        have ha : a.is_loop = false := hstackall a (by simp)
        simp only [find_loop_scope, List.find?, ha, cond_false]
        exact ih (fun sc hsc => hstackall sc (by simp [hsc]))

/-- C2 witness: with an inner plain scope holding `a`, a loop scope
holding `b`, and an outer plain scope holding `c`, a bare `break`
releases `a` and `b` (in that order), does not release `c`, and then
emits `break;`. -/
theorem gen_break_release_range_witness :
    gen_stmt 1 c2Ctx (Node.nBreak none false none) =
      (c2Ctx, ["__zn_str_release(a);\n", "__zn_str_release(b);\n", "break;\n"]) := by
  have h := (gen_break_continue_release_range 0 c2Ctx none false none
    [⟨[⟨"a", "zn_str"⟩], false⟩] ⟨[⟨"b", "zn_str"⟩], true⟩
    [⟨[⟨"c", "zn_str"⟩], false⟩] (by decide) rfl rfl).1
  exact h.trans (by rfl)

/-! ## C3 — optional narrowing of `if x?` -/

/-- C3: when the condition of an `if` is `x?` for an identifier `x` bound
to an optional type, the analyzer recognises the narrowing shape
(`narrow_candidate`), analyzes the then-block in a pushed scope where `x`
is shadowed by the **non-optional** version of its type (so every
reference to `x` in that block resolves, via `get_expr_type`, to the
underlying type `T`), and pops that scope afterwards, restoring the
outer table where `x` is `T?` again.  On the codegen side, for an
optional **primitive** operand the generator emits the then-block with
`x` pushed onto the narrowed set — under which every read of `x` is
rewritten to `x._val` — and restores the narrowed set before continuing,
so reads outside the then-block emit plain `x`. -/
theorem narrowing_scope_and_rewrite
    (scopes : List Scope) (x : String) (orig : Symbol)
    (fuel : Nat) (ctx : CodegenContext)
    (crt irt nrt : Option Ty) (cfr idfr nfr bfr : Bool) (ot : Ty)
    (brt : Option Ty) (bstmts : List Node)
    (hlook : lookup scopes x = some orig)
    (hopt : orig.ty.is_optional = true)
    (hot : ot.is_optional = true) (href : is_ref_type ot.kind = false)
    (hnar : ctx.narrowed.contains x = false) :
    narrow_candidate scopes (.nOptionalCheck crt cfr (.nIdent irt idfr x)) =
      some (x, orig) ∧
    lookup (narrow_enter scopes x orig) x =
      some ⟨{ kind := orig.ty.kind, is_optional := false, name := orig.ty.name },
            orig.is_const⟩ ∧
    get_expr_type (narrow_enter scopes x orig) (.nIdent none idfr x) =
      { kind := orig.ty.kind, is_optional := false, name := orig.ty.name } ∧
    pop_scope (narrow_enter scopes x orig) = scopes ∧
    get_expr_type scopes (.nIdent none idfr x) = type_clone orig.ty ∧
    gen_expr (fuel + 1) { ctx with narrowed := x :: ctx.narrowed }
        (.nIdent irt idfr x) =
      ({ ctx with narrowed := x :: ctx.narrowed }, [x ++ "._val"]) ∧
    gen_expr (fuel + 1) ctx (.nIdent irt idfr x) = (ctx, [x]) ∧
    gen_stmt (fuel + 2) ctx
        (.nIf nrt nfr (.nOptionalCheck crt cfr (.nIdent (some ot) idfr x))
          (.nBlock brt bfr bstmts) none) =
      ({ (gen_block (fuel + 1) { ctx with narrowed := x :: ctx.narrowed }
            (.nBlock brt bfr bstmts)).1 with narrowed := ctx.narrowed },
       cg_emit_indent ctx ++ ["if (", "(" ++ x ++ "._has)", ") "] ++
       (gen_block (fuel + 1) { ctx with narrowed := x :: ctx.narrowed }
          (.nBlock brt bfr bstmts)).2 ++ ["\n"]) := by
  refine ⟨?_, ?_, ?_, ?_, ?_, ?_, ?_, ?_⟩
  · simp [narrow_candidate, hlook, hopt]
  · simp [narrow_enter, add_symbol, push_scope, lookup, lookup_local,
      List.find?, type_clone]
  · simp [get_expr_type, narrow_enter, add_symbol, push_scope, lookup,
      lookup_local, List.find?, type_clone]
  · simp [narrow_enter, add_symbol, push_scope, pop_scope, lookup_local,
      List.find?]
  · simp [get_expr_type, hlook]
  · simp [gen_expr, List.contains_cons]
  · have hx : x ∉ ctx.narrowed := by simpa using hnar
    simp [gen_expr, hx]
  · show (let ind := cg_emit_indent ctx
          let narrowing : Option String :=
            match (.nOptionalCheck crt cfr (.nIdent (some ot) idfr x) : Node) with
            | .nOptionalCheck _ _ (.nIdent ort _ y) =>
                match ort with
                | some oty =>
                    if oty.is_optional ∧ ¬ is_ref_type oty.kind then some y else none
                | none => none
            | _ => none
          let (ctx1, condF) := gen_expr (fuel + 1) ctx
            (.nOptionalCheck crt cfr (.nIdent (some ot) idfr x))
          let (ctx2, thenF) :=
            match narrowing, (.nBlock brt bfr bstmts : Node) with
            | some y, .nBlock brt2 bfr2 bstmts2 =>
                let ctxN := { ctx1 with narrowed := y :: ctx1.narrowed }
                let (ctxB, tf) := gen_block (fuel + 1) ctxN (.nBlock brt2 bfr2 bstmts2)
                ({ ctxB with narrowed := ctx1.narrowed }, tf)
            | _, _ => gen_block (fuel + 1) ctx1 (.nBlock brt bfr bstmts)
          (ctx2, ind ++ ["if ("] ++ condF ++ [") "] ++ thenF ++ ["\n"])) = _
    have hcond : gen_expr (fuel + 1) ctx
        (.nOptionalCheck crt cfr (.nIdent (some ot) idfr x)) =
        (ctx, ["(" ++ x ++ "._has)"]) := by
      have hrk : rt_kind (.nIdent (some ot) idfr x) = ot.kind := rfl
      simp [gen_expr, hrk, href]
    simp only [hcond, hot, href, Bool.not_eq_true, and_true, true_and,
      Bool.false_eq_true, not_false_iff, if_pos, and_self]
    simp [List.append_assoc]

/-- C3 witness: for `x : int?`, inside the narrowed then-scope `x`
resolves to plain `int`, and the generator, with `x` in the narrowed set,
rewrites the read of `x` to `x._val`. -/
theorem narrowing_scope_witness :
    lookup (narrow_enter c3Scopes "x" ⟨tyIntOpt, false⟩) "x" =
      some ⟨{ kind := TypeKind.tkInt, is_optional := false, name := none }, false⟩ ∧
    gen_expr 1 { cg_ctx0 with narrowed := ["x"] } (Node.nIdent none false "x") =
      ({ cg_ctx0 with narrowed := ["x"] }, ["x._val"]) := by
  have h := narrowing_scope_and_rewrite c3Scopes "x" ⟨tyIntOpt, false⟩ 0 cg_ctx0
    none none none false false false false tyIntOpt none []
    (by decide) rfl rfl (by decide) (by decide)
  exact ⟨h.2.1, h.2.2.2.2.2.1.trans (by rfl)⟩

/-! ## C8 — the built-in `print` -/

/-- C8: `print` resolves to `void`; its analysis reports no diagnostic
exactly when there is exactly one argument whose resolved kind is string
(or unknown, which suppresses the diagnostic); any single argument of a
different known kind — int, bool, float, char among them — draws a
diagnostic; and the generated code writes the argument string's bytes to
stdout via `fputs((...)->_data, stdout)`. -/
theorem analyze_print_string_only (scopes : List Scope) (args : List Node)
    (a : Node) (fuel : Nat) (ctx : CodegenContext) (rest : List Node) :
    (analyze_print_call scopes args).2 = type_new TypeKind.tkVoid ∧
    ((analyze_print_call scopes args).1 = 0 ↔
      ∃ a0, args = [a0] ∧
        ((get_expr_type scopes a0).kind = TypeKind.tkString ∨
         (get_expr_type scopes a0).kind = TypeKind.tkUnknown)) ∧
    ((get_expr_type scopes a).kind ≠ TypeKind.tkString →
      (get_expr_type scopes a).kind ≠ TypeKind.tkUnknown →
      (analyze_print_call scopes [a]).1 = 1) ∧
    (gen_print_call fuel ctx (a :: rest)).2 =
      ["(\x7b fputs(("] ++ (gen_expr fuel ctx a).2 ++
      [")->_data, stdout); \x7d)"] := by
  refine ⟨?_, ?_, ?_, ?_⟩
  · match args with
    | [] => rfl
    | [a0] => rfl
    | a0 :: b :: rest2 => rfl
  · match args with
    | [] => simp [analyze_print_call]
    | [a0] =>
        simp only [analyze_print_call]
        by_cases h1 : (get_expr_type scopes a0).kind = TypeKind.tkString
        · simp [h1]
        · by_cases h2 : (get_expr_type scopes a0).kind = TypeKind.tkUnknown
          · simp [h1, h2]
          · simp [h1, h2]
    | a0 :: b :: rest2 => simp [analyze_print_call]
  · intro h1 h2
    simp [analyze_print_call, h1, h2]
  · simp [gen_print_call]

/-- C8 witness: a single int argument draws exactly one diagnostic. -/
theorem analyze_print_int_witness :
    (analyze_print_call [] [Node.nInt none false 1]).1 = 1 := by
  exact (analyze_print_string_only [] [] (Node.nInt none false 1) 0 cg_ctx0
    []).2.2.1 (by decide) (by decide)

/-! ## C9 — annotated fields have no usable default -/

/-- C9: a field registered with an explicit type annotation always has
`has_default = 0` and a `NULL` `default_value`, whatever default
expression the declaration attached; `has_default` is set exactly when
there is no annotation and a default expression exists; and struct
initialization reports no missing-required-field diagnostic exactly when
every field without a default is among the provided named arguments. -/
theorem struct_field_annotation_no_default
    (scopes : List Scope) (reg : String → Option Bool) (fname : String)
    (ti : TypeInfoM) (tio : Option TypeInfoM) (dv : Option Node) (c : Bool)
    (fields : List StructFieldDef) (arg_names : List String) :
    ((register_struct_field scopes reg fname (some ti) dv c).has_default = false ∧
     (register_struct_field scopes reg fname (some ti) dv c).default_value = none) ∧
    ((register_struct_field scopes reg fname tio dv c).has_default = true ↔
      tio = none ∧ dv.isSome = true) ∧
    (missing_required_errors fields arg_names = 0 ↔
      ∀ fd ∈ fields, fd.has_default = false → fd.name ∈ arg_names) := by
  refine ⟨⟨rfl, rfl⟩, ?_, ?_⟩
  · cases tio with
    | some ti2 => simp [register_struct_field]
    | none =>
        cases dv with
        | some d => simp [register_struct_field]
        | none => simp [register_struct_field]
  · unfold missing_required_errors
    rw [List.countP_eq_zero]
    constructor
    · intro hall fd hfd hnd
      by_contra hmem
      apply hall fd hfd
      rw [hnd]
      simp only [Bool.not_false, Bool.true_and, Bool.not_eq_true']
      rw [List.any_eq_false]
      intro x hx
      simp only [decide_eq_true_eq]
      intro hxeq
      exact hmem (hxeq ▸ hx)
    · intro hin fd hfd
      by_cases hd : fd.has_default
      · simp [hd]
      · intro hp
        simp only [Bool.and_eq_true, Bool.not_eq_true'] at hp
        have hmem := hin fd hfd hp.1
        have hane := List.any_eq_false.mp hp.2 fd.name hmem
        simp at hane

/-- C9 witness: a field annotated `x : int` with an attached default
still registers without a default, and omitting it from the named
arguments draws a missing-required-field diagnostic while a field with a
pure default does not. -/
theorem struct_field_annotation_witness :
    (register_struct_field [] (fun _ => none) "x"
        (some ⟨TypeKind.tkInt, false, none⟩) (some (Node.nInt none false 0))
        false).has_default = false ∧
    (register_struct_field [] (fun _ => none) "x"
        (some ⟨TypeKind.tkInt, false, none⟩) (some (Node.nInt none false 0))
        false).default_value = none ∧
    missing_required_errors
      [{ name := "x", ty := some tyInt, has_default := false, is_const := false,
         default_value := none }] [] = 1 := by
  refine ⟨?_, ?_, ?_⟩
  · exact (struct_field_annotation_no_default [] (fun _ => none) "x"
      ⟨TypeKind.tkInt, false, none⟩ none (some (Node.nInt none false 0)) false
      [] []).1.1
  · exact (struct_field_annotation_no_default [] (fun _ => none) "x"
      ⟨TypeKind.tkInt, false, none⟩ none (some (Node.nInt none false 0)) false
      [] []).1.2
  · rfl

/-! ## C10 — missing hash keys versus array bounds -/

/-- C10: `__zn_hash_get` on a key not present in the hash returns the
`ZnValue` with tag int and payload 0 and never aborts (the function is
total); the same value is returned when the key **is** present with a
stored int 0, so the two cases are indistinguishable; `__zn_arr_get`
with an out-of-bounds index produces the diagnostic and exit status 1,
and an in-bounds index succeeds. -/
theorem hash_missing_key_returns_int_zero
    (h : ZnHashM) (key : ZnValue) (data : List ZnValue) (idx : Int) :
    ((∀ b ∈ h.buckets, ∀ en ∈ b, h.key_equals en.1 key = false) →
      zn_hash_get h key = zn_hash_nil) ∧
    zn_hash_nil = { tag := ZnTag.znInt, payload := 0 } ∧
    (∀ e, (h.buckets.getD (h.key_hashcode key % h.buckets.length) []).find?
        (fun en => h.key_equals en.1 key) = some e → e.2 = zn_hash_nil →
      zn_hash_get h key = zn_hash_nil) ∧
    ((idx < 0 ∨ (data.length : Int) ≤ idx) →
      zn_arr_get data idx = Except.error ("Array index out of bounds", 1)) ∧
    (¬ (idx < 0 ∨ (data.length : Int) ≤ idx) →
      zn_arr_get data idx = Except.ok (data.getD idx.toNat zn_hash_nil)) := by
  refine ⟨?_, rfl, ?_, ?_, ?_⟩
  · intro hall
    cases hq : h.buckets[h.key_hashcode key % h.buckets.length]? with
    | none => simp [zn_hash_get, List.getD, hq]
    | some b =>
        have hmem : b ∈ h.buckets := List.getElem?_mem hq
        have hnone : b.find? (fun en => h.key_equals en.1 key) = none := by
          rw [List.find?_eq_none]
          intro en hen
          simp [hall b hmem en hen]
        simp [zn_hash_get, List.getD, hq, hnone]
  · intro e hfind he2
    simp only [zn_hash_get, hfind]
    exact he2
  · intro hoob
    simp [zn_arr_get, hoob]
  · intro hin
    simp [zn_arr_get, hin]

/-- C10 witness: looking up the key `int 3` in a one-bucket hash holding
only `int 7 ↦ string-pointer 5` yields int 0, exactly the result of
looking up a key stored with value int 0; indexing an empty array at 0
aborts with status 1. -/
theorem hash_missing_key_witness :
    zn_hash_get
      { buckets := [[(⟨ZnTag.znInt, 7⟩, ⟨ZnTag.znString, 5⟩)]],
        key_hashcode := fun _ => 0,
        key_equals := fun a b => a = b }
      ⟨ZnTag.znInt, 3⟩ = zn_hash_nil ∧
    zn_arr_get [] 0 = Except.error ("Array index out of bounds", 1) := by
  constructor
  · exact (hash_missing_key_returns_int_zero
      { buckets := [[(⟨ZnTag.znInt, 7⟩, ⟨ZnTag.znString, 5⟩)]],
        key_hashcode := fun _ => 0,
        key_equals := fun a b => a = b }
      ⟨ZnTag.znInt, 3⟩ [] 0).1 (by decide)
  · exact (hash_missing_key_returns_int_zero
      { buckets := [[(⟨ZnTag.znInt, 7⟩, ⟨ZnTag.znString, 5⟩)]],
        key_hashcode := fun _ => 0,
        key_equals := fun a b => a = b }
      ⟨ZnTag.znInt, 3⟩ [] 0).2.2.2.1 (by norm_num)

end Zinc
